import Mathlib

/-!
Verification of the un-fstring conversion engine (`un_fstring.py`).

The development shallowly embeds the two core functions of the repository:

* `convert_f_strings_to_strings_format` (token-level splice loop plus the
  full pipeline), and
* `convert_f_string_to_format_string` (the rewrite of a single f-string,
  operating on the astroid node of the literal).

External collaborators (the CPython/astroid parser and the `tokenize_rt`
lexer) are third-party libraries, not code of this repository; they enter
the embedding either as explicit function parameters constrained by
hypotheses stating their documented guarantees, or — where a concrete
behavior of theirs is needed — as small definitions modelled from the
spec and the libraries' documented behavior, each marked as such in its
doc comment.

Python exceptions are modelled with `Except`; machine-level details
(interning, unicode normalization) do not arise in this code.
-/

set_option autoImplicit false

namespace UnFstring

/-- Python exception kinds raised (or propagated) by the conversion code:
`SyntaxError` from `ast.parse` / `src_to_tokens`, `KeyError` from the
`CONVERSIONS` dict lookup, `IndexError` from the `format_spec.values[0]`
subscript. -/
inductive PyErr where
  | syntaxError (msg : String)
  | keyError (key : Int)
  | indexError
deriving DecidableEq

/-- Python `str.join` with separator (`sep.join(parts)`). -/
def join_sep (sep : String) : List String → String
  | [] => ""
  | [s] => s
  | s :: rest => s ++ sep ++ join_sep sep rest

/-- Python `"".join(parts)`. -/
def strJoin : List String → String
  | [] => ""
  | s :: rest => s ++ strJoin rest

/-- One character of Python `repr` output for a string quoted with `q`:
backslashes, the quote character and common control characters are
escaped; other printable characters stand for themselves.  (Modelled from
the spec: `repr` belongs to the Python runtime, external to this
repository; only strings of printable characters arise in the claims.) -/
def pyReprEscape (q : Char) (c : Char) : List Char :=
  if c = '\\' then ['\\', '\\']
  else if c = q then ['\\', q]
  else if c = '\n' then ['\\', 'n']
  else if c = '\r' then ['\\', 'r']
  else if c = '\t' then ['\\', 't']
  else [c]

/-- Python `repr` of a string, as used by astroid's `Const.as_string`:
single quotes by default, double quotes when the string contains a single
quote but no double quote.  (Modelled from the spec: the Python runtime's
`repr` is external to this repository.) -/
def pyRepr (s : String) : String :=
  let q : Char := if s.data.contains '\x27' && !(s.data.contains '\x22') then '\x22' else '\x27'
  String.mk (q :: ((s.data.map (pyReprEscape q)).flatten ++ [q]))

/-- Fragment of astroid's expression nodes sufficient for the embedded
expressions exercised here: names, string and integer constants, binary
operators, calls and attribute access.  `FormattedValue.value` in the
source holds such husk nodes ("We can pick the format value nodes right out
of the string"). -/
inductive Expr where
  | Name (name : String)
  | Const (value : String)
  | Num (value : Int)
  | BinOp (left : Expr) (op : String) (right : Expr)
  | Call (func : Expr) (args : List Expr)
  | Attribute (expr : Expr) (attrname : String)

mutual

/-- astroid's `as_string` pretty-printer on the `Expr` fragment: names
verbatim, constants via `repr`, binary operators spaced (`"left op
right"`), calls as `func(arg, ...)`, attributes as `expr.attrname`.
(Modelled from the spec and astroid's documented rendering: astroid is
external to this repository.) -/
def Expr.as_string : Expr → String
  | Expr.Name n => n
  | Expr.Const v => pyRepr v
  | Expr.Num n => toString n
  | Expr.BinOp l op r => Expr.as_string l ++ " " ++ op ++ " " ++ Expr.as_string r
  | Expr.Call f args => Expr.as_string f ++ "(" ++ join_sep ", " (asStringList args) ++ ")"
  | Expr.Attribute e a => Expr.as_string e ++ "." ++ a

/-- `as_string` of each node of a list, in order. -/
def asStringList : List Expr → List String
  | [] => []
  | e :: rest => Expr.as_string e :: asStringList rest

end

/-- A child of an astroid `JoinedStr` node (one segment of an f-string):
either a plain-text `Const` (its already-unescaped string value, so the
source text `{{` appears here as the single character `{`), or a
`FormattedValue` carrying the embedded expression node, the conversion
code (`-1` none, `115` `!s`, `114` `!r`, `97` `!a`) and the format spec.
The spec, when present, is astroid's `format_spec.values` list reduced to
its literal text fragments (`Const` children); an empty source spec
(`f"{x:}"`) yields the empty list, exactly as the parser produces
`JoinedStr(values=[])` there.  Nested format-spec expressions are outside
this model. -/
inductive FChild where
  | const (value : String)
  | formattedValue (value : Expr) (conversion : Int) (format_spec : Option (List String))

/-- The fixed conversion table of `un_fstring.py`:
`{-1: "", 115: "!s", 114: "!r", 97: "!a"}`.  A missing key is a Python
`KeyError`, modelled by `none`. -/
def CONVERSIONS : Int → Option String := fun c =>
  if c = -1 then some ""
  else if c = 115 then some "!s"
  else if c = 114 then some "!r"
  else if c = 97 then some "!a"
  else none

/-- The format-spec fragment of a placeholder:
`f":{child.format_spec.values[0].value}" if child.format_spec is not None
else ""`.  Subscripting `values[0]` on an empty list raises `IndexError`. -/
def format_spec_text : Option (List String) → Except PyErr String
  | none => Except.ok ""
  | some vs =>
    match vs.head? with
    | some v => Except.ok (":" ++ v)
    | none => Except.error PyErr.indexError

/-- The `for child in node.get_children()` loop of
`convert_f_string_to_format_string`: walks the children in order,
collecting `format_string_parts` (plain-text values verbatim; one
placeholder `"{" + CONVERSIONS[conversion] + spec + "}"` per
`FormattedValue`) and `format_args` (the expression nodes, in order). -/
def collect_parts_and_args : List FChild → Except PyErr (List String × List Expr)
  | [] => Except.ok ([], [])
  | FChild.const v :: rest =>
    match collect_parts_and_args rest with
    | Except.error e => Except.error e
    | Except.ok (ps, args) => Except.ok (v :: ps, args)
  | FChild.formattedValue e conv fs :: rest =>
    match CONVERSIONS conv with
    | none => Except.error (PyErr.keyError conv)
    | some m =>
      match format_spec_text fs with
      | Except.error er => Except.error er
      | Except.ok f =>
        match collect_parts_and_args rest with
        | Except.error er => Except.error er
        | Except.ok (ps, args) =>
          Except.ok (("\x7b" ++ m ++ f ++ "\x7d") :: ps, e :: args)

/-- `convert_f_string_to_format_string`, from the parsed astroid node of
the literal (the `astroid.extract_node` step is the parser, external to
this repository; theorems relate the token text to its node by
hypothesis).  Builds `"".join(format_string_parts)`, wraps it in a `Const`
whose `as_string` is its `repr`, attaches `.format` and renders the call
`Const.format(arg, ...)` exactly as `format_call.as_string()` does. -/
def convert_f_string_to_format_string (children : List FChild) : Except PyErr String :=
  match collect_parts_and_args children with
  | Except.error e => Except.error e
  | Except.ok (ps, args) =>
    Except.ok (pyRepr (strJoin ps) ++ ".format(" ++ join_sep ", " (args.map Expr.as_string) ++ ")")

/-- A `tokenize_rt` token: `Token(name, src, line, utf8_byte_offset)`. -/
structure Token where
  name : String
  src : String
  line : Int
  utf8_byte_offset : Int
deriving DecidableEq

/-- The `offset` property of a `tokenize_rt` token:
`Offset(line, utf8_byte_offset)`. -/
def Token.offset (t : Token) : Int × Int := (t.line, t.utf8_byte_offset)

/-- Python `str.startswith`. -/
def startswith (s p : String) : Bool := List.isPrefixOf p.data s.data

/-- `tokenize_rt.tokens_to_src`: the concatenation of every token's exact
source text.  (Modelled from the spec: re-concatenating all tokens' text
reproduces the source; `tokenize_rt` is external to this repository.) -/
def tokens_to_src (tokens : List Token) : String := strJoin (tokens.map Token.src)

/-- The `for idx, token in enumerate(tokens)` splice loop of
`convert_f_strings_to_strings_format`: a token whose offset is a located
f-string position and whose text starts with `"f"` has its `src` replaced
by the converted literal (`name`, `line`, `utf8_byte_offset` are carried
over unchanged); every other token is left untouched.  `convertLit` is
`convert_f_string_to_format_string` on the token's source text; an
exception inside the loop aborts the whole conversion. -/
def convert_tokens (convertLit : String → Except PyErr String)
    (fstrings : Int × Int → Bool) : List Token → Except PyErr (List Token)
  | [] => Except.ok []
  | t :: rest =>
    match (if fstrings t.offset && startswith t.src "f" then
            Except.map (fun s => Token.mk t.name s t.line t.utf8_byte_offset) (convertLit t.src)
           else Except.ok t) with
    | Except.error e => Except.error e
    | Except.ok t2 =>
      match convert_tokens convertLit fstrings rest with
      | Except.error e => Except.error e
      | Except.ok rest2 => Except.ok (t2 :: rest2)

/-- `convert_f_strings_to_strings_format(src)`: `ast.parse` plus the
`FindFStrings` visitor (represented by `ast_parse`, returning the offsets
of every `JoinedStr` node, or a `SyntaxError`), then
`src_to_tokens` (represented by `src_to_tokens`, or a `SyntaxError`),
then the splice loop, then `tokens_to_src`.  The two parser parameters
stand for the external CPython/astroid and `tokenize_rt` libraries. -/
def convert_f_strings_to_strings_format
    (ast_parse : String → Except PyErr (List (Int × Int)))
    (src_to_tokens : String → Except PyErr (List Token))
    (convertLit : String → Except PyErr String)
    (src : String) : Except PyErr String :=
  match ast_parse src with
  | Except.error e => Except.error e
  | Except.ok fstrings =>
    match src_to_tokens src with
    | Except.error e => Except.error e
    | Except.ok tokens =>
      match convert_tokens convertLit (fun o => fstrings.contains o) tokens with
      | Except.error e => Except.error e
      | Except.ok tokens2 => Except.ok (tokens_to_src tokens2)

/-- Drop leading and trailing spaces from a character list. -/
def trimSpaces (l : List Char) : List Char :=
  ((l.dropWhile (fun c => c = ' ')).reverse.dropWhile (fun c => c = ' ')).reverse

/-- Split a character list on the `+` character. -/
def splitPlus : List Char → List (List Char)
  | [] => [[]]
  | c :: rest =>
    if c = '+' then [] :: splitPlus rest
    else
      match splitPlus rest with
      | [] => [[c]]
      | p :: ps => (c :: p) :: ps

/-- Parse one identifier made of letters. -/
def parseIdent (l : List Char) : Option Expr :=
  if !l.isEmpty && l.all Char.isAlpha then some (Expr.Name (String.mk l)) else none

/-- Parse every chunk of a `+`-chain as an identifier. -/
def parseChain : List (List Char) → Option (List Expr)
  | [] => some []
  | p :: rest =>
    match parseIdent (trimSpaces p), parseChain rest with
    | some e, some es => some (e :: es)
    | _, _ => none

/-- Modelled from the spec: the structural parser (CPython/astroid, the
Structural Locator's reading of an embedded expression) restricted to a
minimal fragment — identifier atoms and the left-associative binary `+`
operator, with insignificant surrounding whitespace.  It links an embedded
expression's exact source text to the structural node the code stores in
`format_args`; the full Python expression grammar is external to this
repository. -/
def parseExpr (s : String) : Option Expr :=
  match parseChain (splitPlus s.data) with
  | some (e :: es) => some (es.foldl (fun l r => Expr.BinOp l "+" r) e)
  | _ => none

/-- Scanner for `str.format` template text (the Format String Syntax that
the synthesized template is interpreted under): `{{` and `}}` are escaped
literal braces, `{...}` delimits one placeholder whose replacement-field
text is returned, a lone `}` or an unterminated `{` is malformed
(`none`).  The `acc` state is `some` while inside a placeholder.  Nested
braces inside a field are outside this model (the synthesizer never emits
them for brace-free segment text).  This is the claim-side reading of
"the template text contains exactly k placeholders". -/
def phScan : Option (List Char) → List Char → Option (List String)
  | none, [] => some []
  | none, c :: rest =>
    if c = '\x7b' then
      match rest with
      | [] => none
      | d :: rest2 => if d = '\x7b' then phScan none rest2 else phScan (some []) (d :: rest2)
    else if c = '\x7d' then
      match rest with
      | [] => none
      | d :: rest2 => if d = '\x7d' then phScan none rest2 else none
    else phScan none rest
  | some _, [] => none
  | some acc, c :: rest =>
    if c = '\x7d' then (phScan none rest).map (fun l => String.mk acc :: l)
    else phScan (some (acc ++ [c])) rest

/-- The placeholders of a `str.format` template, in order, by their
replacement-field text; `none` when the template is malformed. -/
def placeholders (t : String) : Option (List String) := phScan none t.data

/-- A character list with no brace characters. -/
def braceFreeL (l : List Char) : Prop := ∀ c ∈ l, c ≠ '\x7b' ∧ c ≠ '\x7d'

instance braceFreeL_dec (l : List Char) : Decidable (braceFreeL l) :=
  inferInstanceAs (Decidable (∀ c ∈ l, c ≠ '\x7b' ∧ c ≠ '\x7d'))

/-- The f-string children whose brace content is benign for the emitted
template: plain-text values without brace characters, and format specs
whose used fragment (the head `Const` value) is brace-free.  The original
source can violate this (a literal `{{` or `}}` inside the f-string text),
which is exactly the unescaped-brace defect. -/
def ChildBraceSafe : FChild → Prop
  | FChild.const v => braceFreeL v.data
  | FChild.formattedValue _ _ none => True
  | FChild.formattedValue _ _ (some vs) =>
    match vs.head? with
    | none => True
    | some f => braceFreeL f.data

/-- The replacement-field text the conversion emits for a child: `none`
for plain text, and for an embedded expression the conversion marker
followed by the format-spec fragment (when both are well defined). -/
def fvContent : FChild → Option String
  | FChild.const _ => none
  | FChild.formattedValue _ conv fs =>
    match CONVERSIONS conv, format_spec_text fs with
    | some m, Except.ok f => some (m ++ f)
    | _, _ => none

/-- The embedded-expression nodes of an f-string, in order of appearance. -/
def fvExprs : List FChild → List Expr :=
  List.filterMap (fun c =>
    match c with
    | FChild.formattedValue e _ _ => some e
    | _ => none)

theorem string_data_append (a b : String) : (a ++ b).data = a.data ++ b.data := by
  cases a
  cases b
  rfl

theorem strJoin_data (l : List String) : (strJoin l).data = (l.map String.data).flatten := by
  induction l with
  | nil => rfl
  | cons s rest ih => simp [strJoin, string_data_append, ih]

theorem startswith_f_head (s : String) (h : startswith s "f" = true) :
    ∃ l, s.data = 'f' :: l := by
  unfold startswith at h
  cases hd : s.data with
  | nil => rw [hd] at h; simp [List.isPrefixOf] at h
  | cons c cs =>
    rw [hd] at h
    simp [List.isPrefixOf] at h
    exact ⟨cs, by rw [← h]⟩

theorem pyRepr_head (s : String) :
    (pyRepr s).data.head? = some '\x27' ∨ (pyRepr s).data.head? = some '\x22' := by
  unfold pyRepr
  by_cases h : (s.data.contains '\x27' && !(s.data.contains '\x22')) = true
  · right; simp only [h, if_true]; rfl
  · left; simp only [if_neg h]; rfl

theorem convert_tokens_nochange (cl : String → Except PyErr String)
    (fstrings : Int × Int → Bool) (toks : List Token)
    (h : ∀ t ∈ toks, (fstrings t.offset && startswith t.src "f") = false) :
    convert_tokens cl fstrings toks = Except.ok toks := by
  induction toks with
  | nil => rfl
  | cons t rest ih =>
    have ht : (fstrings t.offset && startswith t.src "f") = false :=
      h t (List.mem_cons_self t rest)
    have hrest : convert_tokens cl fstrings rest = Except.ok rest :=
      ih (fun u hu => h u (List.mem_cons_of_mem t hu))
    simp [convert_tokens, ht, hrest]

theorem convert_tokens_pointwise (cl : String → Except PyErr String)
    (fstrings : Int × Int → Bool) :
    ∀ (toks out : List Token), convert_tokens cl fstrings toks = Except.ok out →
      out.length = toks.length ∧
      ∀ (i : Nat) (hi : i < toks.length) (ho : i < out.length),
        ((fstrings toks[i].offset && startswith toks[i].src "f") = false →
          out[i] = toks[i]) ∧
        ((fstrings toks[i].offset && startswith toks[i].src "f") = true →
          out[i].name = toks[i].name ∧
          out[i].line = toks[i].line ∧
          out[i].utf8_byte_offset = toks[i].utf8_byte_offset ∧
          cl toks[i].src = Except.ok out[i].src) := by
  intro toks
  induction toks with
  | nil =>
    intro out h
    simp only [convert_tokens] at h
    cases h
    exact ⟨rfl, fun i hi => absurd hi (by simp)⟩
  | cons t rest ih =>
    intro out h
    simp only [convert_tokens] at h
    cases hhead : (if fstrings t.offset && startswith t.src "f" then
        Except.map (fun s => Token.mk t.name s t.line t.utf8_byte_offset) (cl t.src)
      else Except.ok t) with
    | error e => rw [hhead] at h; simp at h
    | ok t2 =>
      rw [hhead] at h
      cases hrest : convert_tokens cl fstrings rest with
      | error e => rw [hrest] at h; simp at h
      | ok rest2 =>
        rw [hrest] at h
        simp at h
        obtain ⟨hl, hr⟩ := ih rest2 hrest
        subst h
        refine ⟨by simp [hl], ?_⟩
        intro i hi ho
        cases i with
        | zero =>
          simp only [List.getElem_cons_zero]
          constructor
          · intro hcond
            rw [if_neg (by simp [hcond])] at hhead
            cases hhead
            rfl
          · intro hcond
            rw [if_pos hcond] at hhead
            cases hcl : cl t.src with
            | error e => rw [hcl] at hhead; cases hhead
            | ok s =>
              rw [hcl] at hhead
              cases hhead
              exact ⟨rfl, rfl, rfl, rfl⟩
        | succ j =>
          simp only [List.getElem_cons_succ]
          exact hr j (Nat.lt_of_succ_lt_succ hi) (Nat.lt_of_succ_lt_succ ho)

/-- Claim C1: for every source text that parses and contains zero
interpolated-string (f-string) literals, the conversion returns the text
byte-for-byte unchanged.  The locator having found no f-string is the
hypothesis `ast_parse src = ok []`; round-trip fidelity of the lexer
(`tokens_to_src (src_to_tokens src) = src`, the documented `tokenize_rt`
guarantee) is the remaining hypothesis. -/
theorem c1_identity_on_fstring_free_input
    (ast_parse : String → Except PyErr (List (Int × Int)))
    (src_to_tokens : String → Except PyErr (List Token))
    (convertLit : String → Except PyErr String)
    (src : String) (toks : List Token)
    (hparse : ast_parse src = Except.ok [])
    (htok : src_to_tokens src = Except.ok toks)
    (hfidelity : tokens_to_src toks = src) :
    convert_f_strings_to_strings_format ast_parse src_to_tokens convertLit src =
      Except.ok src := by
  have hloop : convert_tokens convertLit (fun _ => false) toks = Except.ok toks :=
    convert_tokens_nochange _ _ _ (fun t _ => by simp)
  simp [convert_f_strings_to_strings_format, hparse, htok, hloop, hfidelity]

theorem c1_identity_on_fstring_free_input_witness :
    convert_f_strings_to_strings_format
      (fun _ => Except.ok [])
      (fun _ => Except.ok [Token.mk "NAME" "x" 1 0, Token.mk "NEWLINE" "\n" 1 1])
      (fun _ => Except.error PyErr.indexError)
      "x\n" = Except.ok "x\n" :=
  c1_identity_on_fstring_free_input _ _ _ _ _ rfl rfl (by decide)

/-- Claim C2: conversion replaces lexemes strictly one-for-one — the
output stream has exactly the tokens of the input stream, a token is
rewritten only when its offset is a located f-string position and its
text starts with `"f"` (and then only its `src` changes, to the converted
literal), and every other token is byte-identical. -/
theorem c2_one_for_one_replacement (cl : String → Except PyErr String)
    (fstrings : Int × Int → Bool) (toks out : List Token)
    (h : convert_tokens cl fstrings toks = Except.ok out) :
    out.length = toks.length ∧
    ∀ (i : Nat) (hi : i < toks.length) (ho : i < out.length),
      ((fstrings toks[i].offset && startswith toks[i].src "f") = false →
        out[i] = toks[i]) ∧
      ((fstrings toks[i].offset && startswith toks[i].src "f") = true →
        out[i].name = toks[i].name ∧
        out[i].line = toks[i].line ∧
        out[i].utf8_byte_offset = toks[i].utf8_byte_offset ∧
        cl toks[i].src = Except.ok out[i].src) :=
  convert_tokens_pointwise cl fstrings toks out h

theorem c2_one_for_one_replacement_witness :
    convert_tokens (fun _ => Except.ok "\x27\x7b\x7d\x27.format(x)") (fun _ => true)
        [Token.mk "STRING" "f\"\x7bx\x7d\"" 1 0, Token.mk "NEWLINE" "\n" 1 7] =
      Except.ok [Token.mk "STRING" "\x27\x7b\x7d\x27.format(x)" 1 0, Token.mk "NEWLINE" "\n" 1 7] ∧
    ([Token.mk "STRING" "\x27\x7b\x7d\x27.format(x)" 1 0, Token.mk "NEWLINE" "\n" 1 7] : List Token).length =
      ([Token.mk "STRING" "f\"\x7bx\x7d\"" 1 0, Token.mk "NEWLINE" "\n" 1 7] : List Token).length :=
  ⟨rfl,
    (c2_one_for_one_replacement (fun _ => Except.ok "\x27\x7b\x7d\x27.format(x)") (fun _ => true)
      [Token.mk "STRING" "f\"\x7bx\x7d\"" 1 0, Token.mk "NEWLINE" "\n" 1 7]
      [Token.mk "STRING" "\x27\x7b\x7d\x27.format(x)" 1 0, Token.mk "NEWLINE" "\n" 1 7] rfl).1⟩

/-- Claim C9: a token at a located f-string position whose text does not
begin with lowercase `"f"` (e.g. an `F"..."` literal) is never replaced:
it comes out byte-identical. -/
theorem c9_uppercase_prefix_not_replaced (cl : String → Except PyErr String)
    (fstrings : Int × Int → Bool) (toks out : List Token)
    (i : Nat) (hi : i < toks.length) (ho : i < out.length)
    (h : convert_tokens cl fstrings toks = Except.ok out)
    (hloc : fstrings toks[i].offset = true)
    (hpre : startswith toks[i].src "f" = false) :
    out[i] = toks[i] :=
  ((convert_tokens_pointwise cl fstrings toks out h).2 i hi ho).1 (by rw [hloc, hpre]; rfl)

theorem c9_uppercase_prefix_not_replaced_witness :
    convert_tokens (fun _ => Except.error PyErr.indexError) (fun _ => true)
        [Token.mk "STRING" "F\"\x7bx\x7d\"" 1 0] =
      Except.ok [Token.mk "STRING" "F\"\x7bx\x7d\"" 1 0] ∧
    ([Token.mk "STRING" "F\"\x7bx\x7d\"" 1 0] : List Token)[0] =
      Token.mk "STRING" "F\"\x7bx\x7d\"" 1 0 :=
  ⟨rfl,
    c9_uppercase_prefix_not_replaced (fun _ => Except.error PyErr.indexError) (fun _ => true)
      [Token.mk "STRING" "F\"\x7bx\x7d\"" 1 0] [Token.mk "STRING" "F\"\x7bx\x7d\"" 1 0]
      0 (by decide) (by decide) rfl rfl rfl⟩

theorem string_eq_of_data (a b : String) (h : a.data = b.data) : a = b := by
  cases a
  cases b
  simp only at h
  rw [h]

theorem string_append_assoc (a b c : String) : a ++ b ++ c = a ++ (b ++ c) := by
  apply string_eq_of_data
  simp [string_data_append]

theorem format_call_empty_args (a : String) :
    a ++ ".format(" ++ "" ++ ")" = a ++ ".format()" := by
  rw [string_append_assoc, string_append_assoc]
  have h : (".format(" : String) ++ ("" ++ ")") = ".format()" := by decide
  rw [h]

theorem collect_const_texts (texts : List String) :
    collect_parts_and_args (texts.map FChild.const) = Except.ok (texts, []) := by
  induction texts with
  | nil => rfl
  | cons v rest ih => simp [collect_parts_and_args, ih]

/-- Claim C3: the conversion does NOT escape brace characters found in an
f-string's plain-text segments.  The literal `f"{{}}"` (whose parsed
plain-text value is the two characters `{}`) is carried into the template
verbatim, yielding `'{}'.format()` — the spec requires the doubled form
`{{}}` (template `'{{}}'.format()`), and the emitted call even changes
run-time behavior (`'{}'.format()` raises `IndexError`, while the
original literal evaluates to `{}`). -/
theorem c3_braces_not_escaped :
    collect_parts_and_args [FChild.const "\x7b\x7d"] = Except.ok (["\x7b\x7d"], []) ∧
    convert_f_string_to_format_string [FChild.const "\x7b\x7d"] =
      Except.ok "\x27\x7b\x7d\x27.format()" ∧
    ("\x7b\x7d" : String) ≠ "\x7b\x7b\x7d\x7d" :=
  ⟨rfl, rfl, by decide⟩

/-- Claim C6: the conversion-marker table is the fixed total mapping
str → `!s`, repr → `!r`, ascii → `!a` (by the parser's conversion codes
115/114/97), and an expression with no directive (code `-1`) and no
format specifier still yields the bare placeholder `{}` — the segment is
never dropped, and its expression still lands in the argument list. -/
theorem c6_conversion_marker_table :
    CONVERSIONS 115 = some "!s" ∧ CONVERSIONS 114 = some "!r" ∧
    CONVERSIONS 97 = some "!a" ∧ CONVERSIONS (-1) = some "" ∧
    (∀ e : Expr,
      collect_parts_and_args [FChild.formattedValue e 115 none] =
        Except.ok (["\x7b!s\x7d"], [e]) ∧
      collect_parts_and_args [FChild.formattedValue e 114 none] =
        Except.ok (["\x7b!r\x7d"], [e]) ∧
      collect_parts_and_args [FChild.formattedValue e 97 none] =
        Except.ok (["\x7b!a\x7d"], [e]) ∧
      collect_parts_and_args [FChild.formattedValue e (-1) none] =
        Except.ok (["\x7b\x7d"], [e])) :=
  ⟨rfl, rfl, rfl, rfl, fun _ => ⟨rfl, rfl, rfl, rfl⟩⟩

/-- Claim C8: an input that parses can still crash the conversion, with
an error that is not a `SyntaxError`: the literal `f"{x:}"` is valid
Python (its parsed node carries `format_spec = JoinedStr(values=[])`),
but `child.format_spec.values[0]` raises `IndexError`, so no output text
is produced at all.  Both the single-literal conversion and the full
pipeline (locator and lexer succeeding on the one-token source) are
evaluated at this failing input. -/
theorem c8_parseable_input_crashes :
    convert_f_string_to_format_string
        [FChild.formattedValue (Expr.Name "x") (-1) (some [])] =
      Except.error PyErr.indexError ∧
    convert_f_strings_to_strings_format
        (fun _ => Except.ok [(1, 0)])
        (fun s => Except.ok [Token.mk "STRING" s 1 0])
        (fun _ =>
          convert_f_string_to_format_string
            [FChild.formattedValue (Expr.Name "x") (-1) (some [])])
        "f\"\x7bx:\x7d\"" = Except.error PyErr.indexError :=
  ⟨rfl, rfl⟩

/-- Claim C10: an f-string with only plain text and no embedded
expressions (all children `Const`) is still rewritten — into the plain
string literal (`repr` of the joined text) followed by `.format()` with
an empty argument list — so the token is modified: the output text starts
with a quote character while the original token text starts with `f`. -/
theorem c10_pure_text_literal_still_rewritten
    (cl : String → Except PyErr String) (fstrings : Int × Int → Bool)
    (t : Token) (texts : List String) (out : String)
    (hnode : convert_f_string_to_format_string (texts.map FChild.const) = Except.ok out)
    (hcl : cl t.src = Except.ok out)
    (hloc : fstrings t.offset = true)
    (hpre : startswith t.src "f" = true) :
    convert_tokens cl fstrings [t] =
      Except.ok [Token.mk t.name out t.line t.utf8_byte_offset] ∧
    collect_parts_and_args (texts.map FChild.const) = Except.ok (texts, []) ∧
    out = pyRepr (strJoin texts) ++ ".format()" ∧
    out ≠ t.src := by
  have hcollect := collect_const_texts texts
  have hout : out = pyRepr (strJoin texts) ++ ".format()" := by
    unfold convert_f_string_to_format_string at hnode
    rw [hcollect] at hnode
    simp only [List.map_nil] at hnode
    have : pyRepr (strJoin texts) ++ ".format(" ++ join_sep ", " [] ++ ")" = out :=
      by injection hnode
    rw [← this]
    exact format_call_empty_args _
  refine ⟨by simp [convert_tokens, hloc, hpre, hcl, Except.map], hcollect, hout, ?_⟩
  intro heq
  obtain ⟨l, hl⟩ := startswith_f_head t.src hpre
  have hq : out.data.head? = some '\x27' ∨ out.data.head? = some '\x22' := by
    rw [hout, string_data_append]
    rcases pyRepr_head (strJoin texts) with h | h <;>
      [left; right] <;>
      · cases hd : (pyRepr (strJoin texts)).data with
        | nil => rw [hd] at h; simp at h
        | cons c cs =>
          rw [hd] at h
          simp at h
          simp [hd, h]
  have : out.data.head? = some 'f' := by rw [heq, hl]; rfl
  rcases hq with h | h <;> rw [this] at h <;> simp at h

theorem c10_pure_text_literal_still_rewritten_witness :
    convert_tokens (fun _ => Except.ok "\x27abc\x27.format()") (fun _ => true)
        [Token.mk "STRING" "f\"abc\"" 1 0] =
      Except.ok [Token.mk "STRING" "\x27abc\x27.format()" 1 0] ∧
    collect_parts_and_args (["abc"].map FChild.const) = Except.ok (["abc"], []) ∧
    "\x27abc\x27.format()" = pyRepr (strJoin ["abc"]) ++ ".format()" ∧
    "\x27abc\x27.format()" ≠ "f\"abc\"" :=
  c10_pure_text_literal_still_rewritten (fun _ => Except.ok "\x27abc\x27.format()")
    (fun _ => true) (Token.mk "STRING" "f\"abc\"" 1 0) ["abc"] "\x27abc\x27.format()"
    rfl rfl rfl rfl

theorem string_append_empty (s : String) : s ++ "" = s := by
  apply string_eq_of_data
  rw [string_data_append]
  exact List.append_nil _

theorem strJoin_singleton (s : String) : strJoin [s] = s := by
  simp [strJoin, string_append_empty]

theorem conversions_cases (c : Int) (m : String) (h : CONVERSIONS c = some m) :
    m = "" ∨ m = "!s" ∨ m = "!r" ∨ m = "!a" := by
  unfold CONVERSIONS at h
  split_ifs at h <;> simp at h <;> simp [← h]

/-- Claim C4 (counterexample): the embedded expression written `a+b` in
`f"{a+b}"` parses to the `BinOp` node shown, and the emitted argument is
astroid's re-rendering `a + b` — not the exact source text `a+b`. -/
theorem c4_counterexample :
    parseExpr "a+b" = some (Expr.BinOp (Expr.Name "a") "+" (Expr.Name "b")) ∧
    Expr.as_string (Expr.BinOp (Expr.Name "a") "+" (Expr.Name "b")) = "a + b" ∧
    convert_f_string_to_format_string
        [FChild.formattedValue (Expr.BinOp (Expr.Name "a") "+" (Expr.Name "b")) (-1) none] =
      Except.ok "\x27\x7b\x7d\x27.format(a + b)" ∧
    ("a + b" : String) ≠ "a+b" :=
  ⟨rfl, rfl, rfl, by decide⟩

/-- Claim C4 (amended): the argument emitted for an embedded expression
is the structural printer's rendering of the expression's parsed node —
never an evaluation or introspection of its value — and it equals the
expression's exact source text precisely when that source is written in
the printer's canonical spelling (`Expr.as_string e = s`). -/
theorem c4_exact_source_iff_canonical (s : String) (e : Expr) (conv : Int) (m : String)
    (fs : Option (List String)) (f : String)
    (_hp : parseExpr s = some e)
    (hc : Expr.as_string e = s)
    (hm : CONVERSIONS conv = some m)
    (hf : format_spec_text fs = Except.ok f) :
    convert_f_string_to_format_string [FChild.formattedValue e conv fs] =
      Except.ok (pyRepr ("\x7b" ++ m ++ f ++ "\x7d") ++ ".format(" ++ s ++ ")") := by
  simp only [convert_f_string_to_format_string, collect_parts_and_args, hm, hf]
  rw [strJoin_singleton]
  simp [join_sep, hc]

theorem c4_exact_source_iff_canonical_witness :
    convert_f_string_to_format_string [FChild.formattedValue (Expr.Name "a") (-1) none] =
      Except.ok (pyRepr ("\x7b" ++ "" ++ "" ++ "\x7d") ++ ".format(" ++ "a" ++ ")") :=
  c4_exact_source_iff_canonical "a" (Expr.Name "a") (-1) "" none "" rfl rfl rfl rfl

/-- Claim C5 (counterexample): an explicit but empty format specifier
(`f"{x!r:}"`, whose parsed `format_spec` has no `Const` fragment at all)
never yields a placeholder containing `:` followed by the specifier text —
the `values[0]` subscript raises `IndexError` and the conversion of the
literal fails instead. -/
theorem c5_counterexample :
    format_spec_text (some []) = Except.error PyErr.indexError ∧
    collect_parts_and_args [FChild.formattedValue (Expr.Name "x") 114 (some [])] =
      Except.error PyErr.indexError :=
  ⟨rfl, rfl⟩

/-- Claim C5 (amended): when the explicit format specifier is a nonempty
literal text fragment, its placeholder is `{` ++ marker ++ `:` ++ the
exact specifier text ++ `}` — verbatim and unparsed; with no specifier
the placeholder contains no `:` at all (no conversion marker contains
one); an empty specifier is a hard error of the conversion. -/
theorem c5_format_spec_passthrough (e : Expr) (conv : Int) (m v : String)
    (vs : List String) (hm : CONVERSIONS conv = some m) :
    collect_parts_and_args [FChild.formattedValue e conv (some (v :: vs))] =
      Except.ok (["\x7b" ++ m ++ (":" ++ v) ++ "\x7d"], [e]) ∧
    collect_parts_and_args [FChild.formattedValue e conv none] =
      Except.ok (["\x7b" ++ m ++ "" ++ "\x7d"], [e]) ∧
    (∀ c ∈ ("\x7b" ++ m ++ "" ++ "\x7d").data, c ≠ ':') := by
  refine ⟨?_, ?_, ?_⟩
  · simp only [collect_parts_and_args, hm, format_spec_text, List.head?]
  · simp only [collect_parts_and_args, hm, format_spec_text]
  · rcases conversions_cases conv m hm with h | h | h | h <;> subst h <;> decide

theorem c5_format_spec_passthrough_witness :
    CONVERSIONS 114 = some "!r" ∧
    collect_parts_and_args [FChild.formattedValue (Expr.Name "x") 114 (some ["20"])] =
      Except.ok (["\x7b" ++ "!r" ++ (":" ++ "20") ++ "\x7d"], [Expr.Name "x"]) :=
  ⟨rfl, (c5_format_spec_passthrough (Expr.Name "x") 114 "!r" "20" [] rfl).1⟩

theorem phScan_text (s r : List Char) (h : braceFreeL s) :
    phScan none (s ++ r) = phScan none r := by
  induction s with
  | nil => rfl
  | cons c cs ih =>
    have hc := h c (List.mem_cons_self c cs)
    have hcs : braceFreeL cs := fun d hd => h d (List.mem_cons_of_mem c hd)
    rw [List.cons_append, phScan.eq_def]
    simp only [hc.1, hc.2, if_false]
    exact ih hcs

theorem phScan_field (content : List Char) (h : braceFreeL content) :
    ∀ (acc r : List Char),
      phScan (some acc) (content ++ '\x7d' :: r) =
        (phScan none r).map (fun l => String.mk (acc ++ content) :: l) := by
  induction content with
  | nil =>
    intro acc r
    rw [List.nil_append, phScan.eq_def]
    simp
  | cons c cs ih =>
    intro acc r
    have hc := h c (List.mem_cons_self c cs)
    have hcs : braceFreeL cs := fun d hd => h d (List.mem_cons_of_mem c hd)
    rw [List.cons_append, phScan.eq_def]
    simp only [hc.2, if_false]
    rw [ih hcs (acc ++ [c]) r, List.append_assoc, List.singleton_append]

theorem phScan_placeholder (content r : List Char) (h : braceFreeL content) :
    phScan none ('\x7b' :: (content ++ '\x7d' :: r)) =
      (phScan none r).map (fun l => String.mk content :: l) := by
  cases content with
  | nil => rfl
  | cons c cs =>
    have hc := h c (List.mem_cons_self c cs)
    have hfield := phScan_field (c :: cs) h [] r
    rw [List.cons_append] at hfield
    show (if c = '\x7b' then phScan none (cs ++ '\x7d' :: r)
          else phScan (some []) (c :: (cs ++ '\x7d' :: r))) =
      (phScan none r).map (fun l => String.mk (c :: cs) :: l)
    rw [if_neg hc.1, hfield]
    simp only [List.nil_append]

/-- Claim C7 (amended): provided every plain-text segment (and every used
format-spec fragment) is brace-free — which the unescaped-brace defect
makes necessary — the synthesized template scans to exactly the list of
placeholders derived one-for-one, in order, from the embedded
expressions, and the argument list is exactly the embedded-expression
nodes in original left-to-right order, so placeholders and arguments are
equinumerous and aligned. -/
theorem c7_segment_count_and_order (cs : List FChild) :
    ∀ (ps : List String) (args : List Expr),
      (∀ ch ∈ cs, ChildBraceSafe ch) →
      collect_parts_and_args cs = Except.ok (ps, args) →
      placeholders (strJoin ps) = some (cs.filterMap fvContent) ∧
      args = fvExprs cs ∧
      args.length = (cs.filterMap fvContent).length := by
  induction cs with
  | nil =>
    intro ps args _ h
    simp only [collect_parts_and_args] at h
    cases h
    exact ⟨rfl, rfl, rfl⟩
  | cons ch rest ih =>
    intro ps args hsafe h
    have hsafe_rest : ∀ c ∈ rest, ChildBraceSafe c :=
      fun c hc => hsafe c (List.mem_cons_of_mem ch hc)
    cases ch with
    | const v =>
      simp only [collect_parts_and_args] at h
      cases hr : collect_parts_and_args rest with
      | error er => rw [hr] at h; simp at h
      | ok pa =>
        obtain ⟨ps2, args2⟩ := pa
        rw [hr] at h
        simp at h
        obtain ⟨hps, hargs⟩ := h
        obtain ⟨ih1, ih2, ih3⟩ := ih ps2 args2 hsafe_rest hr
        have hv : braceFreeL v.data := hsafe (FChild.const v) (List.mem_cons_self _ _)
        subst hps hargs
        refine ⟨?_, by simp [fvExprs, ih2], by simp [fvContent, ih3]⟩
        unfold placeholders at ih1 ⊢
        rw [strJoin, string_data_append, phScan_text v.data _ hv, ih1]
        simp [fvContent]
    | formattedValue e conv fs =>
      simp only [collect_parts_and_args] at h
      cases hm : CONVERSIONS conv with
      | none => rw [hm] at h; simp at h
      | some m =>
        rw [hm] at h
        cases hf : format_spec_text fs with
        | error er => rw [hf] at h; simp at h
        | ok f =>
          rw [hf] at h
          cases hr : collect_parts_and_args rest with
          | error er => rw [hr] at h; simp at h
          | ok pa =>
            obtain ⟨ps2, args2⟩ := pa
            rw [hr] at h
            simp at h
            obtain ⟨hps, hargs⟩ := h
            obtain ⟨ih1, ih2, ih3⟩ := ih ps2 args2 hsafe_rest hr
            have hmbf : braceFreeL m.data := by
              rcases conversions_cases conv m hm with hh | hh | hh | hh <;> subst hh <;> decide
            have hfbf : braceFreeL f.data := by
              cases fs with
              | none =>
                simp only [format_spec_text] at hf
                cases hf
                decide
              | some vs =>
                cases vs with
                | nil => simp [format_spec_text] at hf
                | cons v vs2 =>
                  simp only [format_spec_text, List.head?] at hf
                  cases hf
                  have hv : braceFreeL v.data :=
                    hsafe (FChild.formattedValue e conv (some (v :: vs2)))
                      (List.mem_cons_self _ _)
                  rw [string_data_append]
                  intro c hc
                  rcases List.mem_append.mp hc with hcl | hcr
                  · simp at hcl
                    subst hcl
                    decide
                  · exact hv c hcr
            have hcontent : braceFreeL (m.data ++ f.data) := by
              intro c hc
              rcases List.mem_append.mp hc with hcl | hcr
              · exact hmbf c hcl
              · exact hfbf c hcr
            subst hps hargs
            have hfc : fvContent (FChild.formattedValue e conv fs) = some (m ++ f) := by
              simp [fvContent, hm, hf]
            refine ⟨?_, by simp [fvExprs, ih2], ?_⟩
            · unfold placeholders at ih1 ⊢
              rw [strJoin, string_data_append]
              have hdata : ("\x7b" ++ m ++ f ++ "\x7d").data ++ (strJoin ps2).data =
                  '\x7b' :: ((m.data ++ f.data) ++ '\x7d' :: (strJoin ps2).data) := by
                simp only [string_data_append]
                simp
              rw [hdata, phScan_placeholder _ _ hcontent, ih1]
              have hmk : String.mk (m.data ++ f.data) = m ++ f :=
                string_eq_of_data _ _ (by rw [string_data_append])
              simp [List.filterMap_cons, hfc, hmk]
            · simp [List.filterMap_cons, hfc, ih3]

theorem c7_segment_count_and_order_witness :
    placeholders (strJoin ["hello ", "\x7b!r:20\x7d", " bye ", "\x7b\x7d"]) =
      some (([FChild.const "hello ",
              FChild.formattedValue (Expr.Name "a") 114 (some ["20"]),
              FChild.const " bye ",
              FChild.formattedValue (Expr.Name "b") (-1) none]).filterMap fvContent) ∧
    ([Expr.Name "a", Expr.Name "b"] : List Expr).length =
      (([FChild.const "hello ",
         FChild.formattedValue (Expr.Name "a") 114 (some ["20"]),
         FChild.const " bye ",
         FChild.formattedValue (Expr.Name "b") (-1) none]).filterMap fvContent).length := by
  have h := c7_segment_count_and_order
    [FChild.const "hello ",
     FChild.formattedValue (Expr.Name "a") 114 (some ["20"]),
     FChild.const " bye ",
     FChild.formattedValue (Expr.Name "b") (-1) none]
    ["hello ", "\x7b!r:20\x7d", " bye ", "\x7b\x7d"]
    [Expr.Name "a", Expr.Name "b"]
    (by intro ch hch; fin_cases hch <;> simp [ChildBraceSafe, braceFreeL])
    (by rfl)
  exact ⟨h.1, h.2.2⟩

/-- Claim C7 (counterexample): the literal `f"{{{x}"` has exactly one
embedded expression, but its synthesized template is the three characters
`{{}` — under the Format String Syntax this is an escaped literal `{`
followed by a stray `}`, a malformed template with no well-formed
placeholder list at all (`str.format` raises on it), not a template with
exactly one placeholder. -/
theorem c7_counterexample :
    collect_parts_and_args
        [FChild.const "\x7b", FChild.formattedValue (Expr.Name "x") (-1) none] =
      Except.ok (["\x7b", "\x7b\x7d"], [Expr.Name "x"]) ∧
    strJoin ["\x7b", "\x7b\x7d"] = "\x7b\x7b\x7d" ∧
    placeholders "\x7b\x7b\x7d" = none ∧
    (fvExprs [FChild.const "\x7b", FChild.formattedValue (Expr.Name "x") (-1) none]).length
      = 1 :=
  ⟨rfl, rfl, rfl, rfl⟩

end UnFstring
